import Mathlib

/-!
Verification of the schema-introspection core of the pwiz code generator.

The repository ships the test suite `playhouse/tests_pwiz.py`; the production
introspector it exercises (`pwiz.py`: the foreign-key pattern matcher, the
dialect introspectors and the schema normalizer) is modelled here from the
specification, faithful to its grammar and contracts.  The test harness
(`generative_test`, the declared models and the expected values) is embedded
from the test file itself.
-/

set_option maxRecDepth 4096

namespace Pwiz

/-! ## Foreign-key pattern matcher

Modelled from the spec, §4.2: a parser over free-form table-definition text
recognizing, case-insensitively, the `FOREIGN KEY(col) REFERENCES table(pk)`
form and the inline column-level `col ... REFERENCES table (pk)` form, with
three mutually exclusive quoting styles per identifier (double-quote,
square-bracket, none) chosen independently for each of the three identifiers,
and arbitrary interior whitespace. -/

def isWs (c : Char) : Bool :=
  c = ' ' || c = '\t' || c = '\n' || c = '\r'

def isIdentChar (c : Char) : Bool :=
  c.isAlphanum || c = '_'

/-- Drop leading whitespace. -/
def skipWs : List Char → List Char
  | c :: cs => if isWs c then skipWs cs else c :: cs
  | [] => []

/-- Consume the keyword `kw` case-insensitively; return the remainder. -/
def matchKeyword : List Char → List Char → Option (List Char)
  | [], cs => some cs
  | _ :: _, [] => none
  | k :: ks, c :: cs => if c.toLower = k.toLower then matchKeyword ks cs else none

/-- Split off a maximal run of identifier characters. -/
def spanIdent : List Char → List Char × List Char
  | [] => ([], [])
  | c :: cs =>
    if isIdentChar c then
      let (i, r) := spanIdent cs
      (c :: i, r)
    else ([], c :: cs)

/-- Modelled from the spec: one identifier in any of the three quoting styles
(double-quoted, square-bracketed, bare); the captured text is the identifier
without its quotes. -/
def parseIdent : List Char → Option (String × List Char)
  | '"' :: cs =>
    match spanIdent cs with
    | (i, '"' :: r) => if i.isEmpty then none else some (String.mk i, r)
    | _ => none
  | '[' :: cs =>
    match spanIdent cs with
    | (i, ']' :: r) => if i.isEmpty then none else some (String.mk i, r)
    | _ => none
  | cs =>
    match spanIdent cs with
    | (i, r) => if i.isEmpty then none else some (String.mk i, r)

/-- After an inline column identifier, skip intervening clause words
(`NOT NULL`, `INTEGER`, `PRIMARY KEY`, ...) until the `REFERENCES` keyword;
return the remainder right after that keyword. -/
def findReferences : Nat → List Char → Option (List Char)
  | 0, _ => none
  | _ + 1, [] => none
  | fuel + 1, c :: cs =>
    if isWs c then
      let cs2 := skipWs cs
      match matchKeyword "references".data cs2 with
      | some rest =>
        if (rest.head?.map isIdentChar).getD false then
          match spanIdent cs2 with
          | (i, r) => if i.isEmpty then none else findReferences fuel r
        else some rest
      | none =>
        match spanIdent cs2 with
        | (i, r) => if i.isEmpty then none else findReferences fuel r
    else none

/-- Parse `table ( pk )` (each identifier in any quoting style) after the
`REFERENCES` keyword; return the two identifiers and the remainder. -/
def parseRefTail (cs : List Char) : Option (String × String × List Char) :=
  match parseIdent (skipWs cs) with
  | none => none
  | some (tbl, r) =>
    match skipWs r with
    | '(' :: r2 =>
      match parseIdent (skipWs r2) with
      | none => none
      | some (pk, r3) =>
        match skipWs r3 with
        | ')' :: r4 => some (tbl, pk, r4)
        | _ => none
    | _ => none

/-- Try to match a foreign-key declaration starting exactly here: first the
`FOREIGN KEY ( col ) REFERENCES table ( pk )` form, then the inline
column-level `col ... REFERENCES table ( pk )` form. -/
def matchFKAt (cs : List Char) : Option ((String × String × String) × List Char) :=
  match matchKeyword "foreign".data cs with
  | some (c :: r1) =>
    if isWs c then
      match matchKeyword "key".data (skipWs r1) with
      | some r3 =>
        match skipWs r3 with
        | '(' :: r4 =>
          match parseIdent (skipWs r4) with
          | some (col, r5) =>
            match skipWs r5 with
            | ')' :: r6 =>
              match matchKeyword "references".data (skipWs r6) with
              | some r7 =>
                match parseRefTail r7 with
                | some (tbl, pk, rest) => some ((col, tbl, pk), rest)
                | none => matchFKInline cs
              | none => matchFKInline cs
            | _ => matchFKInline cs
          | none => matchFKInline cs
        | _ => matchFKInline cs
      | none => matchFKInline cs
    else matchFKInline cs
  | _ => matchFKInline cs
where
  matchFKInline (cs : List Char) : Option ((String × String × String) × List Char) :=
    match parseIdent cs with
    | some (col, r1) =>
      match findReferences r1.length r1 with
      | some r2 =>
        match parseRefTail r2 with
        | some (tbl, pk, rest) => some ((col, tbl, pk), rest)
        | none => none
      | none => none
    | none => none

/-- All matches of the foreign-key pattern in the text, scanning left to
right and resuming after the end of each match. -/
def fkFindAllAux : Nat → List Char → List (String × String × String)
  | 0, _ => []
  | _ + 1, [] => []
  | fuel + 1, cs@(_ :: cs') =>
    match matchFKAt cs with
    | some (t, rest) => t :: fkFindAllAux fuel rest
    | none => fkFindAllAux fuel cs'

/-- Modelled from the spec: the foreign-key pattern matcher
(`SqliteIntrospector.re_foreign_key` searched case-insensitively), returning
every `(column, referenced_table, referenced_column)` triple in the text. -/
def fkFindAll (s : String) : List (String × String × String) :=
  fkFindAllAux s.data.length s.data

/-- The first match, mirroring a single pattern search over the line. -/
def fkSearch (s : String) : Option (String × String × String) :=
  (fkFindAll s).head?

/-! ## Data model

Modelled from the spec, §3: field-kind tags, column descriptors, foreign-key
descriptors and table descriptors. -/

/-- The enumerated field-kind tags of the normalized data model. -/
inductive FieldClass where
  | bigInteger
  | blob
  | boolean
  | char
  | date
  | dateTime
  | decimal
  | double
  | float
  | integer
  | primaryKey
  | text
  | time
  | foreignKey
deriving DecidableEq, Repr

/-- A column as declared when the schema was created: physical name,
declared field kind, nullability. -/
structure DeclColumn where
  name : String
  fieldClass : FieldClass
  nullable : Bool
deriving DecidableEq, Repr

/-- A foreign-key descriptor: referencing column, referenced table,
referenced column. -/
structure ForeignKeyDesc where
  column : String
  table : String
  pk : String
deriving DecidableEq, Repr

/-- A table of the declared schema: name, ordered columns, the designated
primary-key column, and the declared foreign keys in declaration order. -/
structure DeclTable where
  name : String
  columns : List DeclColumn
  primaryKey : String
  fks : List ForeignKeyDesc
deriving DecidableEq, Repr

/-- Modelled from the spec, §4.1: a dialect carries a fixed mapping from the
declared field kind (via its native type name) back to the field-kind tag the
introspector reports. -/
structure Dialect where
  classMap : FieldClass → FieldClass

/-- Modelled from the spec and the tolerance sets of the test suite: a
dialect's type mapping reproduces every field kind exactly, except that a
dialect that does not natively distinguish them may report a declared
boolean as integer and a declared double as float. -/
def Dialect.Conforming (d : Dialect) : Prop :=
  ∀ c, d.classMap c = c ∨
    (c = FieldClass.boolean ∧ d.classMap c = FieldClass.integer) ∨
    (c = FieldClass.double ∧ d.classMap c = FieldClass.float)

/-- A dialect that natively distinguishes every field kind. -/
def exactDialect : Dialect := ⟨fun c => c⟩

/-- A dialect that does not distinguish boolean from integer nor double
from float. -/
def coarseDialect : Dialect :=
  ⟨fun c =>
    match c with
    | FieldClass.boolean => FieldClass.integer
    | FieldClass.double => FieldClass.float
    | c => c⟩

/-! ## Schema normalizer

Modelled from the spec, §4.3. -/

/-- Split off the leading run of non-letter characters. -/
def spanNonAlpha : List Char → List Char × List Char
  | [] => ([], [])
  | c :: cs =>
    if c.isAlpha then ([], c :: cs)
    else
      let (p, r) := spanNonAlpha cs
      (c :: p, r)

/-- Title-case a name as a single token: first letter upper-case, the rest
lower-case. -/
def titleToken : List Char → List Char
  | [] => []
  | c :: cs => c.toUpper :: cs.map Char.toLower

/-- Modelled from the spec: the table-name to model-name mapping — title-case
the table name as a single token, preserving any leading special characters
verbatim as a prefix. -/
def tableToModel (t : String) : String :=
  let (pre, rest) := spanNonAlpha t.data
  String.mk (pre ++ titleToken rest)

/-- The single-quote character. -/
def squote : Char := '\x27'

/-- The quoted literal of a physical column name, as recorded under the
db_column hint. -/
def quoteLit (s : String) : String :=
  String.mk (squote :: s.data ++ [squote])

/-- The declared foreign key whose referencing column is `cname`, if any. -/
def findFK (fks : List ForeignKeyDesc) (cname : String) : Option ForeignKeyDesc :=
  fks.find? (fun fk => fk.column == cname)

/-- Column metadata as reported by introspection: the field-kind tag and the
nullability flag. -/
structure ColumnInfo where
  field_class : FieldClass
  nullable : Bool
deriving DecidableEq, Repr

/-- Modelled from the spec: the introspected metadata of one column — a
foreign-key column is reported with the foreign-key tag; any other column's
declared kind passes through the dialect's type mapping; nullability is
propagated verbatim. -/
def introspectColumn (d : Dialect) (t : DeclTable) (c : DeclColumn) : ColumnInfo :=
  match findFK t.fks c.name with
  | some _ => ⟨FieldClass.foreignKey, c.nullable⟩
  | none => ⟨d.classMap c.fieldClass, c.nullable⟩

/-- The per-column code-generation hints, represented as an explicit struct
of optional fields as the spec's design notes direct. -/
structure ColumnExtras where
  db_column : Option String := none
  rel_model : Option String := none
  primary_key : Bool := false
  null : Bool := false
deriving DecidableEq, Repr

/-- Modelled from the spec: the extras of a column — for a foreign-key column,
the quoted physical name under db_column, the referenced table's generated
model name under rel_model, and the primary-key and nullability flags
propagated verbatim; no hints for other columns. -/
def columnExtras (t : DeclTable) (c : DeclColumn) : ColumnExtras :=
  match findFK t.fks c.name with
  | some fk =>
    { db_column := some (quoteLit c.name)
      rel_model := some (tableToModel fk.table)
      primary_key := c.name == t.primaryKey
      null := c.nullable }
  | none => {}

/-- The four-part schema bundle produced by one introspection run. -/
structure SchemaBundle where
  models : List (String × List (String × ColumnInfo))
  table_to_model : List (String × String)
  table_fks : List (String × List ForeignKeyDesc)
  col_meta : List (String × List (String × ColumnExtras))
deriving DecidableEq, Repr

/-- Modelled from the spec: one introspection run over the declared schema,
building the four mappings in one pass, in catalog order. -/
def introspect (d : Dialect) : List DeclTable → SchemaBundle
  | [] => ⟨[], [], [], []⟩
  | t :: rest =>
    let b := introspect d rest
    ⟨(t.name, t.columns.map fun c => (c.name, introspectColumn d t c)) :: b.models,
     (t.name, tableToModel t.name) :: b.table_to_model,
     (t.name, t.fks) :: b.table_fks,
     (t.name, t.columns.map fun c => (c.name, columnExtras t c)) :: b.col_meta⟩

/-- The bundle as the positional four-tuple callers destructure:
(column mapping, model-name mapping, foreign-key mapping, column extras). -/
def introspectTuple (d : Dialect) (s : List DeclTable) :
    List (String × List (String × ColumnInfo)) × List (String × String) ×
      List (String × List ForeignKeyDesc) ×
      List (String × List (String × ColumnExtras)) :=
  ((introspect d s).models, (introspect d s).table_to_model,
   (introspect d s).table_fks, (introspect d s).col_meta)

/-- The column mapping on its own: per table, the ordered introspected
column metadata. -/
def columnsOf (d : Dialect) (s : List DeclTable) :
    List (String × List (String × ColumnInfo)) :=
  s.map fun t => (t.name, t.columns.map fun c => (c.name, introspectColumn d t c))

/-- The model-name mapping on its own. -/
def modelNamesOf (s : List DeclTable) : List (String × String) :=
  s.map fun t => (t.name, tableToModel t.name)

/-- The foreign-key mapping on its own: every table is present, with its
declared foreign keys in order (possibly the empty list). -/
def fksOf (s : List DeclTable) : List (String × List ForeignKeyDesc) :=
  s.map fun t => (t.name, t.fks)

/-- The column-extras mapping on its own. -/
def extrasOf (s : List DeclTable) :
    List (String × List (String × ColumnExtras)) :=
  s.map fun t => (t.name, t.columns.map fun c => (c.name, columnExtras t c))

/-! ## The multi-dialect test harness

Embedded from `tests_pwiz.py` (`generative_test`): each configured dialect is
either available (its driver imported) or unavailable; an available dialect is
processed, an unavailable one is skipped, with a diagnostic line when the
verbosity is positive. -/

/-- One pass of the harness over the configured dialects: returns the
processed (database, name) pairs in order, and the diagnostics printed. -/
def generativeTest {α : Type} :
    List (Option α × String) → Nat → List (α × String) × List String
  | [], _ => ([], [])
  | (some db, nm) :: rest, v =>
    let r := generativeTest rest v
    ((db, nm) :: r.1, r.2)
  | (none, nm) :: rest, v =>
    let r := generativeTest rest v
    (r.1, if 0 < v then ("Skipping " ++ nm ++ ", driver not found") :: r.2 else r.2)

/-! ## The declared test schema

Embedded from the model declarations of `tests_pwiz.py` (ColTypes, Nullable,
RelModel, FKPK, Underscores). -/

def coltypesTable : DeclTable :=
  ⟨"coltypes",
   [⟨"f1", FieldClass.bigInteger, false⟩,
    ⟨"f2", FieldClass.blob, false⟩,
    ⟨"f3", FieldClass.boolean, false⟩,
    ⟨"f4", FieldClass.char, false⟩,
    ⟨"f5", FieldClass.date, false⟩,
    ⟨"f6", FieldClass.dateTime, false⟩,
    ⟨"f7", FieldClass.decimal, false⟩,
    ⟨"f8", FieldClass.double, false⟩,
    ⟨"f9", FieldClass.float, false⟩,
    ⟨"f10", FieldClass.integer, false⟩,
    ⟨"f11", FieldClass.primaryKey, false⟩,
    ⟨"f12", FieldClass.text, false⟩,
    ⟨"f13", FieldClass.time, false⟩],
   "f11", []⟩

def nullableTable : DeclTable :=
  ⟨"nullable",
   [⟨"id", FieldClass.primaryKey, false⟩,
    ⟨"nullable_cf", FieldClass.char, true⟩,
    ⟨"nullable_if", FieldClass.integer, true⟩],
   "id", []⟩

def relmodelTable : DeclTable :=
  ⟨"relmodel",
   [⟨"id", FieldClass.primaryKey, false⟩,
    ⟨"col_types_id", FieldClass.foreignKey, false⟩,
    ⟨"col_types_nullable_id", FieldClass.foreignKey, true⟩],
   "id",
   [⟨"col_types_id", "coltypes", "f11"⟩,
    ⟨"col_types_nullable_id", "coltypes", "f11"⟩]⟩

def fkpkTable : DeclTable :=
  ⟨"fkpk",
   [⟨"col_types_id", FieldClass.foreignKey, false⟩],
   "col_types_id",
   [⟨"col_types_id", "coltypes", "f11"⟩]⟩

def underscoresTable : DeclTable :=
  ⟨"underscores",
   [⟨"_id", FieldClass.primaryKey, false⟩,
    ⟨"_name", FieldClass.char, false⟩],
   "_id", []⟩

def testSchema : List DeclTable :=
  [coltypesTable, nullableTable, relmodelTable, fkpkTable, underscoresTable]

/-- Two-level lookup: the entry for column `col` of table `tbl` in a
per-table per-column mapping. -/
def lookup2 {β : Type} (m : List (String × List (String × β)))
    (tbl col : String) : Option β :=
  (m.lookup tbl).bind fun l => l.lookup col

end Pwiz

namespace Pwiz

/-! ## Helper lemmas -/

theorem introspect_models (d : Dialect) (s : List DeclTable) :
    (introspect d s).models = columnsOf d s := by
  induction s with
  | nil => rfl
  | cons t rest ih => simp [introspect, columnsOf] at ih ⊢; exact ih

theorem introspect_table_to_model (d : Dialect) (s : List DeclTable) :
    (introspect d s).table_to_model = modelNamesOf s := by
  induction s with
  | nil => rfl
  | cons t rest ih => simp [introspect, modelNamesOf] at ih ⊢; exact ih

theorem introspect_table_fks (d : Dialect) (s : List DeclTable) :
    (introspect d s).table_fks = fksOf s := by
  induction s with
  | nil => rfl
  | cons t rest ih => simp [introspect, fksOf] at ih ⊢; exact ih

theorem introspect_col_meta (d : Dialect) (s : List DeclTable) :
    (introspect d s).col_meta = extrasOf s := by
  induction s with
  | nil => rfl
  | cons t rest ih => simp [introspect, extrasOf] at ih ⊢; exact ih

/-- Looking up a key in a keyed map over a list with distinct keys finds the
value of the matching element. -/
theorem lookup_map_key {α β : Type} (key : α → String) (f : α → β) :
    ∀ (s : List α) (t : α), (s.map key).Nodup → t ∈ s →
      (s.map fun u => (key u, f u)).lookup (key t) = some (f t) := by
  intro s
  induction s with
  | nil => intro t _ ht; cases ht
  | cons u rest ih =>
    intro t hnd ht
    simp only [List.map_cons, List.nodup_cons] at hnd
    rcases List.mem_cons.mp ht with h | h
    · subst h
      simp [List.lookup]
    · have hne : (key t == key u) = false := by
        refine beq_eq_false_iff_ne.mpr ?_
        intro he
        exact hnd.1 (he ▸ List.mem_map_of_mem key h)
      simp only [List.map_cons, List.lookup, hne]
      exact ih t hnd.2 h

theorem conforming_exact : Dialect.Conforming exactDialect :=
  fun _ => Or.inl rfl

theorem conforming_coarse : Dialect.Conforming coarseDialect := by
  intro c
  cases c <;> simp [coarseDialect, Dialect.classMap]

end Pwiz

namespace Pwiz

/-- C1: each of the five canonical foreign-key textual forms (double-quoted,
unquoted, bracket-quoted with arbitrary interior whitespace, and the two
inline column-level REFERENCES forms, matched case-insensitively) yields
exactly one match whose three captured identifiers, in order
(column, table, referenced_column), are the literal identifiers of the text:
here ("user_id", "users", "id"). -/
theorem C1_five_fk_forms :
    fkFindAll "FOREIGN KEY(\"user_id\") REFERENCES \"users\"(\"id\")" =
      [("user_id", "users", "id")] ∧
    fkFindAll "FOREIGN KEY(user_id) REFERENCES users(id)" =
      [("user_id", "users", "id")] ∧
    fkFindAll "FOREIGN KEY  ([user_id])  REFERENCES  [users]  ([id])" =
      [("user_id", "users", "id")] ∧
    fkFindAll "\"user_id\" NOT NULL REFERENCES \"users\" (\"id\")" =
      [("user_id", "users", "id")] ∧
    fkFindAll "user_id not null references users (id)" =
      [("user_id", "users", "id")] := by
  refine ⟨?_, ?_, ?_, ?_, ?_⟩ <;> rfl

/-- C2: the combined primary-key/foreign-key declaration line and the
equivalent FOREIGN KEY-keyword form both match with capture groups exactly
("col_types_id", "coltypes", "f11"). -/
theorem C2_fk_pk_forms :
    fkFindAll
        "\"col_types_id\" INTEGER NOT NULL PRIMARY KEY REFERENCES \"coltypes\" (\"f11\")" =
      [("col_types_id", "coltypes", "f11")] ∧
    fkFindAll "FOREIGN KEY (\"col_types_id\") REFERENCES \"coltypes\" (\"f11\")" =
      [("col_types_id", "coltypes", "f11")] := by
  exact ⟨rfl, rfl⟩

/-- C3: the extras of every foreign-key column are exactly: db_column set to
the quoted literal of the physical column name, rel_model set to the
referenced table's generated model name, the primary_key flag set exactly
when the column is the table's primary key, and the null flag set exactly
when the column is nullable — and no other hints. -/
theorem C3_fk_column_extras (d : Dialect) (s : List DeclTable) (t : DeclTable)
    (c : DeclColumn) (fk : ForeignKeyDesc)
    (hnd : (s.map DeclTable.name).Nodup)
    (hcnd : (t.columns.map DeclColumn.name).Nodup)
    (ht : t ∈ s) (hc : c ∈ t.columns)
    (hfk : findFK t.fks c.name = some fk) :
    lookup2 (introspect d s).col_meta t.name c.name =
      some ⟨some (quoteLit c.name), some (tableToModel fk.table),
            c.name == t.primaryKey, c.nullable⟩ := by
  unfold lookup2
  rw [introspect_col_meta]
  show (extrasOf s).lookup t.name >>= _ = _
  unfold extrasOf
  rw [lookup_map_key DeclTable.name
    (fun u => u.columns.map fun c => (c.name, columnExtras u c)) s t hnd ht]
  simp only [Option.bind_eq_bind, Option.some_bind]
  rw [lookup_map_key DeclColumn.name (columnExtras t) t.columns c hcnd hc]
  simp [columnExtras, hfk]

/-- C3 witness: the nullable foreign-key column of the relmodel table. -/
theorem C3_fk_column_extras_witness :
    lookup2 (introspect exactDialect testSchema).col_meta
        "relmodel" "col_types_nullable_id" =
      some ⟨some (quoteLit "col_types_nullable_id"), some (tableToModel "coltypes"),
            ("col_types_nullable_id" == "id"), true⟩ :=
  C3_fk_column_extras exactDialect testSchema relmodelTable
    ⟨"col_types_nullable_id", FieldClass.foreignKey, true⟩
    ⟨"col_types_nullable_id", "coltypes", "f11"⟩
    (by decide) (by decide) (by decide) (by decide) (by decide)

/-- C4 counterexample: a conforming dialect that does not distinguish boolean
from integer introspects the declared-boolean column f3 of coltypes with the
integer field-kind tag, so the round trip does not reproduce the declared
field-kind tag as stated. -/
theorem C4_roundtrip_counterexample :
    Dialect.Conforming coarseDialect ∧
    (⟨"f3", FieldClass.boolean, false⟩ : DeclColumn) ∈ coltypesTable.columns ∧
    lookup2 (introspect coarseDialect testSchema).models "coltypes" "f3" =
      some ⟨FieldClass.integer, false⟩ ∧
    FieldClass.integer ≠ FieldClass.boolean :=
  ⟨conforming_coarse, by decide, by decide, by decide⟩

/-- C4 (amended): introspecting a schema created from declared field kinds
and nullability reproduces every column's nullability flag exactly, and
reproduces the declared field-kind tag exactly up to the dialect-dependent
coarsenings boolean-to-integer and double-to-float. -/
theorem C4_roundtrip (d : Dialect) (hd : d.Conforming)
    (s : List DeclTable) (t : DeclTable) (c : DeclColumn)
    (hnd : (s.map DeclTable.name).Nodup)
    (hcnd : (t.columns.map DeclColumn.name).Nodup)
    (ht : t ∈ s) (hc : c ∈ t.columns)
    (hwf : ∀ fk, findFK t.fks c.name = some fk →
      c.fieldClass = FieldClass.foreignKey) :
    ∃ ci, lookup2 (introspect d s).models t.name c.name = some ci ∧
      ci.nullable = c.nullable ∧
      (ci.field_class = c.fieldClass ∨
        (c.fieldClass = FieldClass.boolean ∧
          ci.field_class = FieldClass.integer) ∨
        (c.fieldClass = FieldClass.double ∧
          ci.field_class = FieldClass.float)) := by
  refine ⟨introspectColumn d t c, ?_, ?_, ?_⟩
  · unfold lookup2
    rw [introspect_models]
    show (columnsOf d s).lookup t.name >>= _ = _
    unfold columnsOf
    rw [lookup_map_key DeclTable.name
      (fun u => u.columns.map fun c => (c.name, introspectColumn d u c)) s t hnd ht]
    simp only [Option.bind_eq_bind, Option.some_bind]
    exact lookup_map_key DeclColumn.name (introspectColumn d t) t.columns c hcnd hc
  · cases hfk : findFK t.fks c.name <;> simp [introspectColumn, hfk]
  · cases hfk : findFK t.fks c.name with
    | some fk =>
      left
      simp [introspectColumn, hfk, hwf fk hfk]
    | none =>
      rcases hd c.fieldClass with h | ⟨hb, hm⟩ | ⟨hb, hm⟩
      · left; simp [introspectColumn, hfk, h]
      · right; left; exact ⟨hb, by simp [introspectColumn, hfk, hm]⟩
      · right; right; exact ⟨hb, by simp [introspectColumn, hfk, hm]⟩

/-- C4 witness: the nullable char column of the nullable table under a
dialect that distinguishes every kind. -/
theorem C4_roundtrip_witness :
    ∃ ci, lookup2 (introspect exactDialect testSchema).models
        "nullable" "nullable_cf" = some ci ∧
      ci.nullable = true ∧
      (ci.field_class = FieldClass.char ∨
        (FieldClass.char = FieldClass.boolean ∧
          ci.field_class = FieldClass.integer) ∨
        (FieldClass.char = FieldClass.double ∧
          ci.field_class = FieldClass.float)) :=
  C4_roundtrip exactDialect conforming_exact testSchema nullableTable
    ⟨"nullable_cf", FieldClass.char, true⟩
    (by decide) (by decide) (by decide) (by decide)
    (fun fk h => by simp [findFK, nullableTable] at h)

/-- C5: the model name recorded for a table is a pure function of the table
name alone — every run, over any schema containing a table of that name and
under any dialect, records the same name, the table name title-cased as a
single token with a leading special character preserved verbatim as a
prefix: fkpk to Fkpk, coltypes to Coltypes, _private to _Private. -/
theorem C5_model_names (d d' : Dialect) (s s' : List DeclTable)
    (t t' : DeclTable)
    (hnd : (s.map DeclTable.name).Nodup)
    (hnd' : (s'.map DeclTable.name).Nodup)
    (ht : t ∈ s) (ht' : t' ∈ s') (hname : t.name = t'.name) :
    (introspect d s).table_to_model.lookup t.name =
      some (tableToModel t.name) ∧
    (introspect d s).table_to_model.lookup t.name =
      (introspect d' s').table_to_model.lookup t'.name ∧
    tableToModel "fkpk" = "Fkpk" ∧
    tableToModel "coltypes" = "Coltypes" ∧
    tableToModel "_private" = "_Private" := by
  have key : ∀ (d0 : Dialect) (s0 : List DeclTable) (t0 : DeclTable),
      (s0.map DeclTable.name).Nodup → t0 ∈ s0 →
      (introspect d0 s0).table_to_model.lookup t0.name =
        some (tableToModel t0.name) := by
    intro d0 s0 t0 h0 h1
    rw [introspect_table_to_model]
    exact lookup_map_key DeclTable.name (fun u => tableToModel u.name) s0 t0 h0 h1
  refine ⟨key d s t hnd ht, ?_, by decide, by decide, by decide⟩
  rw [key d s t hnd ht, key d' s' t' hnd' ht', hname]

/-- C5 witness: the fkpk table inside the test schema, introspected twice. -/
theorem C5_model_names_witness :
    (introspect exactDialect testSchema).table_to_model.lookup "fkpk" =
      some (tableToModel "fkpk") ∧
    (introspect exactDialect testSchema).table_to_model.lookup "fkpk" =
      (introspect coarseDialect testSchema).table_to_model.lookup "fkpk" ∧
    tableToModel "fkpk" = "Fkpk" ∧
    tableToModel "coltypes" = "Coltypes" ∧
    tableToModel "_private" = "_Private" :=
  C5_model_names exactDialect coarseDialect testSchema testSchema
    fkpkTable fkpkTable (by decide) (by decide) (by decide) (by decide) rfl

/-- C6: a table with no declared foreign keys is mapped by the foreign-key
mapping to the empty list — the entry is present, not absent. -/
theorem C6_no_fk_empty_list (d : Dialect) (s : List DeclTable) (t : DeclTable)
    (hnd : (s.map DeclTable.name).Nodup) (ht : t ∈ s) (hfks : t.fks = []) :
    (introspect d s).table_fks.lookup t.name = some [] := by
  rw [introspect_table_fks]
  have h := lookup_map_key DeclTable.name DeclTable.fks s t hnd ht
  rw [hfks] at h
  exact h

/-- C6 witness: the coltypes table of the test schema declares no foreign
keys and is mapped to the empty list. -/
theorem C6_no_fk_empty_list_witness :
    (introspect exactDialect testSchema).table_fks.lookup "coltypes" =
      some [] :=
  C6_no_fk_empty_list exactDialect testSchema coltypesTable
    (by decide) (by decide) (by decide)

/-- C7: a table declaring exactly two foreign-key columns is mapped to a
foreign-key list of length exactly 2, each descriptor's column, table and pk
fields equal to the declared referencing column, referenced table and
referenced primary-key column. -/
theorem C7_two_fks (d : Dialect) (s : List DeclTable) (t : DeclTable)
    (fk1 fk2 : ForeignKeyDesc)
    (hnd : (s.map DeclTable.name).Nodup) (ht : t ∈ s)
    (hfks : t.fks = [fk1, fk2]) :
    ∃ l, (introspect d s).table_fks.lookup t.name = some l ∧
      l.length = 2 ∧
      l.map ForeignKeyDesc.column = [fk1.column, fk2.column] ∧
      l.map ForeignKeyDesc.table = [fk1.table, fk2.table] ∧
      l.map ForeignKeyDesc.pk = [fk1.pk, fk2.pk] := by
  refine ⟨[fk1, fk2], ?_, rfl, rfl, rfl, rfl⟩
  rw [introspect_table_fks]
  have h := lookup_map_key DeclTable.name DeclTable.fks s t hnd ht
  rw [hfks] at h
  exact h

/-- C7 witness: the relmodel table of the test schema, declaring one
non-nullable and one nullable foreign-key column. -/
theorem C7_two_fks_witness :
    ∃ l, (introspect exactDialect testSchema).table_fks.lookup "relmodel" =
        some l ∧
      l.length = 2 ∧
      l.map ForeignKeyDesc.column = ["col_types_id", "col_types_nullable_id"] ∧
      l.map ForeignKeyDesc.table = ["coltypes", "coltypes"] ∧
      l.map ForeignKeyDesc.pk = ["f11", "f11"] :=
  C7_two_fks exactDialect testSchema relmodelTable
    ⟨"col_types_id", "coltypes", "f11"⟩
    ⟨"col_types_nullable_id", "coltypes", "f11"⟩
    (by decide) (by decide) (by decide)

/-- C8: an unavailable dialect is skipped without affecting which dialects
are processed — removing it from the run changes nothing in the processed
list — and, when the verbosity is positive, a skip diagnostic naming it is
emitted. -/
theorem C8_skip_unavailable {α : Type} (pre post : List (Option α × String))
    (nm : String) (v : Nat) :
    (generativeTest (pre ++ (none, nm) :: post) v).1 =
      (generativeTest (pre ++ post) v).1 ∧
    (0 < v →
      ("Skipping " ++ nm ++ ", driver not found") ∈
        (generativeTest (pre ++ (none, nm) :: post) v).2) := by
  induction pre with
  | nil =>
    refine ⟨by simp [generativeTest], fun hv => ?_⟩
    simp [generativeTest, hv]
  | cons p rest ih =>
    obtain ⟨op, pn⟩ := p
    cases op with
    | none =>
      refine ⟨by simp [generativeTest, ih.1], fun hv => ?_⟩
      by_cases h0 : 0 < v
      · simp only [List.cons_append, generativeTest, h0, if_true]
        exact List.mem_cons_of_mem _ (ih.2 hv)
      · exact absurd hv h0
    | some db =>
      refine ⟨by simp [generativeTest, ih.1], fun hv => ?_⟩
      simpa [generativeTest] using ih.2 hv

/-- C8 witness: a three-dialect run whose middle dialect has no driver. -/
theorem C8_skip_unavailable_witness :
    (generativeTest
        [(some (0 : Nat), "sqlite"), (none, "mysql"), (some 1, "postgres")] 1).1 =
      (generativeTest [(some (0 : Nat), "sqlite"), (some 1, "postgres")] 1).1 ∧
    ("Skipping " ++ "mysql" ++ ", driver not found") ∈
      (generativeTest
        [(some (0 : Nat), "sqlite"), (none, "mysql"), (some 1, "postgres")] 1).2 :=
  ⟨(C8_skip_unavailable [(some 0, "sqlite")] [(some 1, "postgres")] "mysql" 1).1,
   (C8_skip_unavailable [(some 0, "sqlite")] [(some 1, "postgres")] "mysql" 1).2
     (by decide)⟩

/-- C9: one introspection run yields the four-part bundle positionally in
the fixed order (column mapping, model-name mapping, foreign-key mapping,
column-extras mapping), so callers can destructure it positionally. -/
theorem C9_bundle_positional (d : Dialect) (s : List DeclTable) :
    introspectTuple d s = (columnsOf d s, modelNamesOf s, fksOf s, extrasOf s) := by
  unfold introspectTuple
  rw [introspect_models, introspect_table_to_model, introspect_table_fks,
    introspect_col_meta]

/-- C10: under any conforming dialect, the introspected field-kind tag of a
column is the declared tag, except that a declared boolean may come back as
integer and a declared double as float; all other declared kinds are
reproduced exactly — and the outcome genuinely depends on the dialect, as
the two modelled dialects disagree on the boolean and double columns of
coltypes. -/
theorem C10_dialect_dependent_classes (d : Dialect) (hd : d.Conforming)
    (s : List DeclTable) (t : DeclTable) (c : DeclColumn)
    (hnd : (s.map DeclTable.name).Nodup)
    (hcnd : (t.columns.map DeclColumn.name).Nodup)
    (ht : t ∈ s) (hc : c ∈ t.columns)
    (hwf : ∀ fk, findFK t.fks c.name = some fk →
      c.fieldClass = FieldClass.foreignKey) :
    ∃ ci, lookup2 (introspect d s).models t.name c.name = some ci ∧
      (ci.field_class = c.fieldClass ∨
        (c.fieldClass = FieldClass.boolean ∧
          ci.field_class = FieldClass.integer) ∨
        (c.fieldClass = FieldClass.double ∧
          ci.field_class = FieldClass.float)) ∧
      (c.fieldClass ≠ FieldClass.boolean → c.fieldClass ≠ FieldClass.double →
        ci.field_class = c.fieldClass) ∧
      ((introspectColumn exactDialect coltypesTable
          ⟨"f3", FieldClass.boolean, false⟩).field_class = FieldClass.boolean ∧
       (introspectColumn coarseDialect coltypesTable
          ⟨"f3", FieldClass.boolean, false⟩).field_class = FieldClass.integer ∧
       (introspectColumn exactDialect coltypesTable
          ⟨"f8", FieldClass.double, false⟩).field_class = FieldClass.double ∧
       (introspectColumn coarseDialect coltypesTable
          ⟨"f8", FieldClass.double, false⟩).field_class = FieldClass.float) := by
  refine ⟨introspectColumn d t c, ?_, ?_, ?_, by decide, by decide, by decide,
    by decide⟩
  · unfold lookup2
    rw [introspect_models]
    show (columnsOf d s).lookup t.name >>= _ = _
    unfold columnsOf
    rw [lookup_map_key DeclTable.name
      (fun u => u.columns.map fun c => (c.name, introspectColumn d u c)) s t hnd ht]
    simp only [Option.bind_eq_bind, Option.some_bind]
    exact lookup_map_key DeclColumn.name (introspectColumn d t) t.columns c hcnd hc
  · cases hfk : findFK t.fks c.name with
    | some fk =>
      left
      simp [introspectColumn, hfk, hwf fk hfk]
    | none =>
      rcases hd c.fieldClass with h | ⟨hb, hm⟩ | ⟨hb, hm⟩
      · left; simp [introspectColumn, hfk, h]
      · right; left; exact ⟨hb, by simp [introspectColumn, hfk, hm]⟩
      · right; right; exact ⟨hb, by simp [introspectColumn, hfk, hm]⟩
  · intro hnb hndbl
    cases hfk : findFK t.fks c.name with
    | some fk =>
      simp [introspectColumn, hfk, hwf fk hfk]
    | none =>
      rcases hd c.fieldClass with h | ⟨hb, _⟩ | ⟨hb, _⟩
      · simp [introspectColumn, hfk, h]
      · exact absurd hb hnb
      · exact absurd hb hndbl

/-- C10 witness: the declared-double column f8 of coltypes under the
coarse dialect comes back as float. -/
theorem C10_dialect_dependent_classes_witness :
    ∃ ci, lookup2 (introspect coarseDialect testSchema).models
        "coltypes" "f8" = some ci ∧
      (ci.field_class = FieldClass.double ∨
        (FieldClass.double = FieldClass.boolean ∧
          ci.field_class = FieldClass.integer) ∨
        (FieldClass.double = FieldClass.double ∧
          ci.field_class = FieldClass.float)) ∧
      (FieldClass.double ≠ FieldClass.boolean →
        FieldClass.double ≠ FieldClass.double →
        ci.field_class = FieldClass.double) ∧
      ((introspectColumn exactDialect coltypesTable
          ⟨"f3", FieldClass.boolean, false⟩).field_class = FieldClass.boolean ∧
       (introspectColumn coarseDialect coltypesTable
          ⟨"f3", FieldClass.boolean, false⟩).field_class = FieldClass.integer ∧
       (introspectColumn exactDialect coltypesTable
          ⟨"f8", FieldClass.double, false⟩).field_class = FieldClass.double ∧
       (introspectColumn coarseDialect coltypesTable
          ⟨"f8", FieldClass.double, false⟩).field_class = FieldClass.float) :=
  C10_dialect_dependent_classes coarseDialect conforming_coarse testSchema
    coltypesTable ⟨"f8", FieldClass.double, false⟩
    (by decide) (by decide) (by decide) (by decide)
    (fun fk h => by simp [findFK, coltypesTable] at h)

end Pwiz
